import Mathlib

/- Shallow embedding of src/product_system.py: the Product record model
   (construction from a keyword mapping with permissive numeric coercion,
   display row, CSV row), the analyze_products aggregator, and the control
   flow of CSV persistence (header choice, atomic load). -/

unseal Rat.add Rat.mul Rat.inv Rat.sub

/-- A Python value as it can appear in the keyword-argument mapping handed to
    Product and stored on its attributes: the GUI and the CSV reader pass
    strings, while get_data_for_csv passes back the typed float and int
    attributes. Python floats are modelled as exact rationals. -/
inductive PyVal where
  | str (s : String)
  | float (x : Rat)
  | int (n : Int)

deriving instance Repr, DecidableEq for PyVal

/-- Python truthiness for the values that occur in this program: an empty
    string and the numbers 0 and 0.0 are falsy, everything else truthy. -/
def pyTruthy : PyVal → Bool
  | PyVal.str s => if s = "" then false else true
  | PyVal.float x => if x = 0 then false else true
  | PyVal.int n => if n = 0 then false else true

/-- Numeric value of a run of decimal digit characters. -/
def digitsVal (cs : List Char) : Nat :=
  cs.foldl (fun a c => a * 10 + (c.toNat - 48)) 0

/-- Every character of the list is a decimal digit. -/
def allDigits (cs : List Char) : Bool :=
  cs.all Char.isDigit

/-- Whitespace characters stripped by Python numeric parsing. -/
def isSpaceChar (c : Char) : Bool :=
  c == ' ' || c == '\t' || c == '\n' || c == '\r'

/-- Strip leading and trailing whitespace from a character list. -/
def charTrim (cs : List Char) : List Char :=
  ((cs.dropWhile isSpaceChar).reverse.dropWhile isSpaceChar).reverse

/-- Strip one optional leading sign, reporting whether it was a minus. -/
def stripSign : List Char → Bool × List Char
  | '-' :: cs => (true, cs)
  | '+' :: cs => (false, cs)
  | cs => (false, cs)

/-- Unsigned decimal mantissa: digits, optionally with one decimal point,
    with at least one digit overall (accepts forms such as 12, 12.5, 12., .5). -/
def parseMantissa (cs : List Char) : Option Rat :=
  let ip := cs.takeWhile (fun c => c != '.')
  let rest := cs.dropWhile (fun c => c != '.')
  match rest with
  | [] =>
    if allDigits ip && !ip.isEmpty then some ((digitsVal ip : Nat) : Rat) else none
  | _ :: fp =>
    if allDigits ip && allDigits fp && (!ip.isEmpty || !fp.isEmpty) then
      some ((digitsVal ip : Rat) + (digitsVal fp : Rat) / ((10 : Rat) ^ fp.length))
    else none

/-- Signed decimal exponent digits after the letter e. -/
def parseExponent (cs : List Char) : Option Int :=
  match stripSign cs with
  | (eneg, ds) =>
    if allDigits ds && !ds.isEmpty then
      some (if eneg then -(digitsVal ds : Int) else (digitsVal ds : Int))
    else none

/-- Python float(s) on a string, modelled over the rationals: optional
    surrounding whitespace, optional sign, decimal mantissa, optional
    exponent; any other input raises ValueError, modelled as none.
    CPython additionally accepts inf and nan words and underscores between
    digits; those forms never occur in this program and are outside the
    model, as is binary floating-point rounding. -/
def pyFloat? (s : String) : Option Rat :=
  let cs := charTrim s.data
  let m := cs.takeWhile (fun c => c != 'e' && c != 'E')
  let e := cs.dropWhile (fun c => c != 'e' && c != 'E')
  match stripSign m with
  | (neg, mcs) =>
    match parseMantissa mcs with
    | none => none
    | some r =>
      let v := if neg then -r else r
      match e with
      | [] => some v
      | _ :: ecs =>
        match parseExponent ecs with
        | none => none
        | some ex => some (v * (10 : Rat) ^ ex)

/-- Python int(s) on a string: optional surrounding whitespace, optional
    sign, decimal digits only; anything else (including a decimal point)
    raises ValueError, modelled as none. -/
def pyInt? (s : String) : Option Int :=
  let cs := charTrim s.data
  match stripSign cs with
  | (neg, ds) =>
    if allDigits ds && !ds.isEmpty then
      some (if neg then -(digitsVal ds : Int) else (digitsVal ds : Int))
    else none

/-- Python float(value) on any value this program can pass: parses strings,
    is the identity on floats, and widens ints. -/
def pyFloatVal? : PyVal → Option Rat
  | PyVal.str s => pyFloat? s
  | PyVal.float x => some x
  | PyVal.int n => some ((n : Int) : Rat)

/-- Truncation toward zero, as Python int() applied to a float. -/
def pyTrunc (x : Rat) : Int :=
  if 0 ≤ x then Rat.floor x else -(Rat.floor (-x))

/-- Python int(value) on any value this program can pass: parses strings
    with exact integer syntax, truncates floats, is the identity on ints. -/
def pyIntVal? : PyVal → Option Int
  | PyVal.str s => pyInt? s
  | PyVal.float x => some (pyTrunc x)
  | PyVal.int n => some n

/-- The Product record: one attribute per entry of Product.fields, with the
    attribute names produced by the name-cleaning rule in __init__ (spaces
    and hyphens to underscores, unit parentheses removed). String-backed
    attributes keep the raw value passed in; the six float fields are
    rationals and the four integer fields are integers after coercion. -/
structure Product where
  Status : PyVal
  SKU_Code : PyVal
  SKU_Name : PyVal
  Product_Line : PyVal
  Category : PyVal
  Sub_Category : PyVal
  MFUPC : PyVal
  SRP : Rat
  PCS_per_Inner_Box : Int
  PCS_per_Master_Box : Int
  Shelflife_Months : Int
  Period_After_Opening_Months : Int
  CBM : Rat
  Heightcm : Rat
  Widthcm : Rat
  Lengthcm : Rat
  Weightg : Rat
  Expiry_Item : PyVal
  Selling_Ban : PyVal
  Storage_Type : PyVal
  Tester_product : PyVal
  Image_URL : PyVal

deriving instance Repr, DecidableEq for Product

/-- The field list that __init__ assigns to self.fields on every instance
    (the same literal list each time), in the order written in the source. -/
def Product.fields : List String :=
  [ "Status", "SKU Code", "SKU Name", "Product Line", "Category",
    "Sub-Category", "MFUPC", "SRP", "PCS per Inner Box",
    "PCS per Master Box", "Shelflife (Months)", "Period After Opening (Months)",
    "CBM", "Height(cm)", "Width(cm)", "Length(cm)",
    "Weight(g)", "Expiry Item", "Selling Ban", "Storage Type",
    "Tester product", "Image URL" ]

/-- Keyword-argument mapping, first binding wins as in a Python dict built
    left to right without duplicate keys. -/
abbrev Kwargs := List (String × PyVal)

/-- kwargs.get(field, "") as used in __init__. -/
def kwget : Kwargs → String → PyVal
  | [], _ => PyVal.str ""
  | (k, v) :: rest, f => if k = f then v else kwget rest f

/-- Product._try_float: float(value) if value else 0.0, with ValueError
    giving 0.0. -/
def Product.try_float (v : PyVal) : Rat :=
  if pyTruthy v then
    match pyFloatVal? v with
    | some x => x
    | none => 0
  else 0

/-- Product._try_int: int(value) if value else 0, with ValueError giving 0. -/
def Product.try_int (v : PyVal) : Int :=
  if pyTruthy v then
    match pyIntVal? v with
    | some n => n
    | none => 0
  else 0

/-- Product.__init__: every field is first set to kwargs.get(field, ""),
    then the six float fields pass through _try_float and the four integer
    fields through _try_int. -/
def Product.ofKwargs (kw : Kwargs) : Product :=
  ⟨ kwget kw "Status",
    kwget kw "SKU Code",
    kwget kw "SKU Name",
    kwget kw "Product Line",
    kwget kw "Category",
    kwget kw "Sub-Category",
    kwget kw "MFUPC",
    Product.try_float (kwget kw "SRP"),
    Product.try_int (kwget kw "PCS per Inner Box"),
    Product.try_int (kwget kw "PCS per Master Box"),
    Product.try_int (kwget kw "Shelflife (Months)"),
    Product.try_int (kwget kw "Period After Opening (Months)"),
    Product.try_float (kwget kw "CBM"),
    Product.try_float (kwget kw "Height(cm)"),
    Product.try_float (kwget kw "Width(cm)"),
    Product.try_float (kwget kw "Length(cm)"),
    Product.try_float (kwget kw "Weight(g)"),
    kwget kw "Expiry Item",
    kwget kw "Selling Ban",
    kwget kw "Storage Type",
    kwget kw "Tester product",
    kwget kw "Image URL" ⟩

/-- Banker-style rounding of a rational to the nearest integer, halves to
    even, as Python applies when formatting with two decimal places. -/
def roundHalfEven (q : Rat) : Int :=
  let f := Rat.floor q
  let r := q - (f : Rat)
  if r < (1 : Rat) / 2 then f
  else if (1 : Rat) / 2 < r then f + 1
  else if f % 2 = 0 then f else f + 1

/-- Insert a comma after every third character; the input is the reversed
    digit string of the integer part, so this is grouping from the right. -/
def group3 : List Char → List Char
  | a :: b :: c :: d :: rest => a :: b :: c :: ',' :: group3 (d :: rest)
  | l => l

/-- Python format specification ,.2f over the rational model: round to two
    decimal places (halves to even), group the integer part in thousands
    with commas, always show exactly two fractional digits. -/
def fmtFixed2 (x : Rat) : String :=
  let cents := roundHalfEven (x * 100)
  let n := cents.natAbs
  let ip := n / 100
  let fr := n % 100
  let ipStr := String.mk (group3 (toString ip).data.reverse).reverse
  let frStr := (if fr < 10 then "0" else "") ++ toString fr
  (if cents < 0 then "-" else "") ++ ipStr ++ "." ++ frStr

/-- Python str() as the program applies it to attribute values placed in
    format strings. Product-line keys are strings in every program path, so
    only the str case is ever exercised; the numeric renderings are minimal
    stand-ins and never reached. -/
def pyToStr : PyVal → String
  | PyVal.str s => s
  | PyVal.int n => toString n
  | PyVal.float x => fmtFixed2 x

/-- Product.get_data_for_display: the eight display columns in the fixed
    order of the source, with the SRP formatted as currency (the peso sign
    appears here exactly as the bytes of the source file render it) and the
    shelf life suffixed with the word months. Pure: it only reads fields. -/
def Product.get_data_for_display (p : Product) : List PyVal :=
  [ p.SKU_Code,
    p.SKU_Name,
    p.Status,
    p.Product_Line,
    p.Category,
    PyVal.str ("â‚±" ++ fmtFixed2 p.SRP),
    PyVal.str (toString p.Shelflife_Months ++ " months"),
    p.Storage_Type ]

/-- Product.get_data_for_csv: one entry per name in Product.fields, in that
    order, holding the current attribute value: the raw stored value for
    string-backed fields and the typed numeric value (never a currency
    string) for the ten numeric fields. -/
def Product.get_data_for_csv (p : Product) : Kwargs :=
  [ ("Status", p.Status),
    ("SKU Code", p.SKU_Code),
    ("SKU Name", p.SKU_Name),
    ("Product Line", p.Product_Line),
    ("Category", p.Category),
    ("Sub-Category", p.Sub_Category),
    ("MFUPC", p.MFUPC),
    ("SRP", PyVal.float p.SRP),
    ("PCS per Inner Box", PyVal.int p.PCS_per_Inner_Box),
    ("PCS per Master Box", PyVal.int p.PCS_per_Master_Box),
    ("Shelflife (Months)", PyVal.int p.Shelflife_Months),
    ("Period After Opening (Months)", PyVal.int p.Period_After_Opening_Months),
    ("CBM", PyVal.float p.CBM),
    ("Height(cm)", PyVal.float p.Heightcm),
    ("Width(cm)", PyVal.float p.Widthcm),
    ("Length(cm)", PyVal.float p.Lengthcm),
    ("Weight(g)", PyVal.float p.Weightg),
    ("Expiry Item", p.Expiry_Item),
    ("Selling Ban", p.Selling_Ban),
    ("Storage Type", p.Storage_Type),
    ("Tester product", p.Tester_product),
    ("Image URL", p.Image_URL) ]

/-- Lower-case one character: ASCII upper-case letters shift down by 32,
    everything else is unchanged. -/
def lowerChar (c : Char) : Char :=
  if 65 ≤ c.toNat && c.toNat ≤ 90 then Char.ofNat (c.toNat + 32) else c

/-- Python str.lower(), which agrees with this ASCII lowering on every
    status string this program uses. -/
def pyLower (s : String) : String :=
  String.mk (s.data.map lowerChar)

/-- Loop predicate product.Status and product.Status.lower() == t. Status is
    a string in every program path; a non-string value, which would raise in
    Python, counts as no match here. -/
def statusMatches (v : PyVal) (t : String) : Bool :=
  match v with
  | PyVal.str s => if s = "" then false else if pyLower s = t then true else false
  | _ => false

/-- Loop expression product.Product_Line if product.Product_Line else
    "Unassigned". -/
def lineOf (p : Product) : PyVal :=
  if pyTruthy p.Product_Line then p.Product_Line else PyVal.str "Unassigned"

/-- product_line_counts[line] = product_line_counts.get(line, 0) + 1 on a
    Python dict, modelled as an insertion-ordered association list: an
    existing key is bumped in place, a new key is appended at the end. -/
def bump : List (PyVal × Nat) → PyVal → List (PyVal × Nat)
  | [], k => [(k, 1)]
  | (j, c) :: rest, k => if j = k then (j, c + 1) :: rest else (j, c) :: bump rest k

/-- product_line_counts.get(k, 0). -/
def countsGet : List (PyVal × Nat) → PyVal → Nat
  | [], _ => 0
  | (j, c) :: rest, k => if j = k then c else countsGet rest k

/-- Python max(product_line_counts, key=product_line_counts.get): scan the
    keys in insertion order and keep the first pair whose count is strictly
    larger than the best so far. -/
def pyMaxPair (kv : PyVal × Nat) (rest : List (PyVal × Nat)) : PyVal × Nat :=
  rest.foldl (fun best x => if best.2 < x.2 then x else best) kv

/-- top_line = max(product_line_counts, key=product_line_counts.get) if
    product_line_counts else "N/A". -/
def pyMaxKey : List (PyVal × Nat) → PyVal
  | [] => PyVal.str "N/A"
  | kv :: rest => (pyMaxPair kv rest).1

/-- One iteration of the analyze_products loop over the accumulator
    (active_count, discontinued_count, total_srp, product_line_counts). -/
def analyzeStep (st : Nat × Nat × Rat × List (PyVal × Nat)) (p : Product) :
    Nat × Nat × Rat × List (PyVal × Nat) :=
  ( if statusMatches p.Status "active" then st.1 + 1 else st.1,
    if statusMatches p.Status "active" then st.2.1
    else if statusMatches p.Status "discontinued" then st.2.1 + 1 else st.2.1,
    st.2.2.1 + p.SRP,
    bump st.2.2.2 (lineOf p) )

/-- analyze_products: the empty database returns the fixed placeholder
    mapping; otherwise one pass accumulates the counts, the SRP sum and the
    product-line frequencies, and the result mapping renders them, with the
    average SRP formatted as currency and the top product line followed by
    its count in parentheses. The result dict is modelled as the ordered
    list of its five key-value pairs. -/
def analyze_products (db : List Product) : List (String × String) :=
  if db.length = 0 then
    [ ("Total Products", "0"), ("Active Products", "0"), ("Discontinued", "0"),
      ("Avg SRP", "N/A"), ("Top Product Line", "N/A") ]
  else
    let st := db.foldl analyzeStep (0, 0, 0, [])
    let avg : Rat := if 0 < db.length then st.2.2.1 / (db.length : Rat) else 0
    let top : PyVal := pyMaxKey st.2.2.2
    [ ("Total Products", toString db.length),
      ("Active Products", toString st.1),
      ("Discontinued", toString st.2.1),
      ("Avg SRP", "â‚±" ++ fmtFixed2 avg),
      ("Top Product Line", pyToStr top ++ " (" ++ toString (countsGet st.2.2.2 top) ++ ")") ]

/-- metrics.get(k): lookup in the modelled result dict of analyze_products. -/
def metricsGet : List (String × String) → String → Option String
  | [], _ => none
  | (k, v) :: rest, f => if k = f then some v else metricsGet rest f

/-- The product-line frequency dict that the analyze_products loop builds
    over a database, on its own. -/
def productLineCounts (db : List Product) : List (PyVal × Nat) :=
  db.foldl (fun c p => bump c (lineOf p)) []

/-- save_products_to_csv chooses fieldnames as Product(**{}).fields when the
    database is empty and product_database[0].fields otherwise; __init__
    assigns the same literal list either way. -/
def save_fieldnames (db : List Product) : List String :=
  match db with
  | [] => Product.fields
  | _ :: _ => Product.fields

/-- save_products_to_csv, as the content it writes: the header row of
    fieldnames followed by one get_data_for_csv row per product. -/
def save_products_to_csv (db : List Product) : List String × List Kwargs :=
  (save_fieldnames db, db.map Product.get_data_for_csv)

/-- One row as the CSV reader yields it, or the read error that interrupts
    the iteration at that point. -/
abbrev RowRead := Except String Kwargs

/-- Reading every row of the file in order: the first error aborts the whole
    read with none, mirroring an exception escaping the row loop. -/
def collectRows : List RowRead → Option (List Kwargs)
  | [] => some []
  | Except.ok r :: rest =>
    match collectRows rest with
    | some rs => some (r :: rs)
    | none => none
  | Except.error _ :: _ => none

/-- load_products_from_csv over the in-memory database: a missing file
    returns at once, leaving the database as it was; an exception anywhere
    while reading rows is caught after the with-block, also leaving the
    database as it was, because the slice assignment
    product_database[:] = loaded_products runs only after every row has been
    read; a full successful read replaces the database with the products
    constructed from the rows. -/
def load_products_from_csv (file : Option (List RowRead)) (db : List Product) :
    List Product :=
  match file with
  | none => db
  | some rows =>
    match collectRows rows with
    | none => db
    | some rs => rs.map Product.ofKwargs

theorem try_float_str (v : String) :
    Product.try_float (PyVal.str v) = (pyFloat? v).getD 0 := by
  by_cases h : v = ""
  · subst h
    simp [Product.try_float, pyTruthy, pyFloatVal?,
      show pyFloat? "" = none from by decide]
  · cases hf : pyFloat? v <;>
      simp [Product.try_float, pyTruthy, pyFloatVal?, h, hf]

theorem try_int_str (v : String) :
    Product.try_int (PyVal.str v) = (pyInt? v).getD 0 := by
  by_cases h : v = ""
  · subst h
    simp [Product.try_int, pyTruthy, pyIntVal?,
      show pyInt? "" = none from by decide]
  · cases hf : pyInt? v <;>
      simp [Product.try_int, pyTruthy, pyIntVal?, h, hf]

theorem try_float_float (x : Rat) : Product.try_float (PyVal.float x) = x := by
  by_cases h : x = 0 <;> simp [Product.try_float, pyTruthy, pyFloatVal?, h]

theorem try_int_int (n : Int) : Product.try_int (PyVal.int n) = n := by
  by_cases h : n = 0 <;> simp [Product.try_int, pyTruthy, pyIntVal?, h]

/-- A mapping whose raw values are all strings, as the GUI and the CSV
    reader supply. -/
def strKwargs (kw : List (String × String)) : Kwargs :=
  kw.map (fun fv => (fv.1, PyVal.str fv.2))

/-- kwargs.get(field, "") over a mapping of raw strings. -/
def strGet : List (String × String) → String → String
  | [], _ => ""
  | (k, v) :: rest, f => if k = f then v else strGet rest f

theorem kwget_strKwargs (kw : List (String × String)) (f : String) :
    kwget (strKwargs kw) f = PyVal.str (strGet kw f) := by
  induction kw with
  | nil => rfl
  | cons kv rest ih =>
    by_cases h : kv.1 = f
    · simp [strKwargs, kwget, strGet, h]
    · simpa [strKwargs, kwget, strGet, h] using ih

/-- C1: constructing a Product from any mapping of field names to raw
    strings is total; each of the six float fields becomes the parsed value
    when the raw string parses as a number and 0.0 when it is empty or
    non-numeric, each of the four integer fields likewise with integer
    parsing, a missing field name defaults to the empty string and hence to
    zero for the numeric fields, and every remaining field stores its raw
    string verbatim. -/
theorem Product.ofKwargs_from_strings (kw : List (String × String)) :
    Product.ofKwargs (strKwargs kw) =
      ⟨ PyVal.str (strGet kw "Status"),
        PyVal.str (strGet kw "SKU Code"),
        PyVal.str (strGet kw "SKU Name"),
        PyVal.str (strGet kw "Product Line"),
        PyVal.str (strGet kw "Category"),
        PyVal.str (strGet kw "Sub-Category"),
        PyVal.str (strGet kw "MFUPC"),
        (pyFloat? (strGet kw "SRP")).getD 0,
        (pyInt? (strGet kw "PCS per Inner Box")).getD 0,
        (pyInt? (strGet kw "PCS per Master Box")).getD 0,
        (pyInt? (strGet kw "Shelflife (Months)")).getD 0,
        (pyInt? (strGet kw "Period After Opening (Months)")).getD 0,
        (pyFloat? (strGet kw "CBM")).getD 0,
        (pyFloat? (strGet kw "Height(cm)")).getD 0,
        (pyFloat? (strGet kw "Width(cm)")).getD 0,
        (pyFloat? (strGet kw "Length(cm)")).getD 0,
        (pyFloat? (strGet kw "Weight(g)")).getD 0,
        PyVal.str (strGet kw "Expiry Item"),
        PyVal.str (strGet kw "Selling Ban"),
        PyVal.str (strGet kw "Storage Type"),
        PyVal.str (strGet kw "Tester product"),
        PyVal.str (strGet kw "Image URL") ⟩ ∧
    strGet [] "SRP" = "" ∧ pyFloat? "" = none ∧ pyInt? "" = none := by
  refine ⟨?_, rfl, by decide, by decide⟩
  simp [Product.ofKwargs, kwget_strKwargs, try_float_str, try_int_str]

/-- C2: rebuilding a Product from its own CSV mapping reproduces it
    field-by-field; the storage round trip is lossless. -/
theorem Product.csv_roundtrip (p : Product) :
    Product.ofKwargs p.get_data_for_csv = p := by
  cases p
  simp [Product.ofKwargs, Product.get_data_for_csv, kwget,
    try_float_float, try_int_int]

/-- C3: analyze_products on the empty database returns exactly the fixed
    placeholder mapping, an ordinary defined result rather than an error. -/
theorem analyze_products_empty :
    analyze_products [] =
      [ ("Total Products", "0"), ("Active Products", "0"), ("Discontinued", "0"),
        ("Avg SRP", "N/A"), ("Top Product Line", "N/A") ] := by
  decide

/-- C6: the display row of any Product is exactly these eight entries in
    this fixed order, whatever the field values are, and the function is
    pure (it is a plain function of the record). -/
theorem Product.get_data_for_display_shape (p : Product) :
    p.get_data_for_display.length = 8 ∧
    p.get_data_for_display =
      [ p.SKU_Code, p.SKU_Name, p.Status, p.Product_Line, p.Category,
        PyVal.str ("â‚±" ++ fmtFixed2 p.SRP),
        PyVal.str (toString p.Shelflife_Months ++ " months"),
        p.Storage_Type ] :=
  ⟨rfl, rfl⟩

/-- Modelled from the spec: the last five field names in the order the data
    model section of the spec lists them (Tester product before Storage
    Type). -/
def specFinalFiveFields : List String :=
  ["Expiry Item", "Selling Ban", "Tester product", "Storage Type", "Image URL"]

/-- C7 counterexample: the header the save operation writes does not end in
    the order the spec lists; in the written header Storage Type precedes
    Tester product. -/
theorem save_header_spec_order_counterexample :
    List.drop 17 (save_products_to_csv []).1 ≠ specFinalFiveFields := by
  decide

/-- C7 amended: for every database, the header row the save operation
    writes is the 22 field names verbatim in the fixed order of the source
    field list, which ends with Expiry Item, Selling Ban, Storage Type,
    Tester product, Image URL. -/
theorem save_header_order (db : List Product) :
    (save_products_to_csv db).1 =
      [ "Status", "SKU Code", "SKU Name", "Product Line", "Category",
        "Sub-Category", "MFUPC", "SRP", "PCS per Inner Box",
        "PCS per Master Box", "Shelflife (Months)", "Period After Opening (Months)",
        "CBM", "Height(cm)", "Width(cm)", "Length(cm)",
        "Weight(g)", "Expiry Item", "Selling Ban", "Storage Type",
        "Tester product", "Image URL" ] := by
  cases db <;> rfl

/-- C8: the CSV mapping of any Product has exactly one entry per recognized
    field name, keyed in the order of Product.fields with no duplicate
    names, and each numeric field carries its numeric value rather than a
    currency-formatted string, while the remaining fields carry their
    stored values verbatim. -/
theorem Product.get_data_for_csv_entries (p : Product) :
    p.get_data_for_csv.map Prod.fst = Product.fields ∧
    Product.fields.Nodup ∧
    kwget p.get_data_for_csv "SRP" = PyVal.float p.SRP ∧
    kwget p.get_data_for_csv "CBM" = PyVal.float p.CBM ∧
    kwget p.get_data_for_csv "Height(cm)" = PyVal.float p.Heightcm ∧
    kwget p.get_data_for_csv "Width(cm)" = PyVal.float p.Widthcm ∧
    kwget p.get_data_for_csv "Length(cm)" = PyVal.float p.Lengthcm ∧
    kwget p.get_data_for_csv "Weight(g)" = PyVal.float p.Weightg ∧
    kwget p.get_data_for_csv "PCS per Inner Box" = PyVal.int p.PCS_per_Inner_Box ∧
    kwget p.get_data_for_csv "PCS per Master Box" = PyVal.int p.PCS_per_Master_Box ∧
    kwget p.get_data_for_csv "Shelflife (Months)" = PyVal.int p.Shelflife_Months ∧
    kwget p.get_data_for_csv "Period After Opening (Months)" =
      PyVal.int p.Period_After_Opening_Months ∧
    kwget p.get_data_for_csv "Status" = p.Status ∧
    kwget p.get_data_for_csv "SKU Code" = p.SKU_Code ∧
    kwget p.get_data_for_csv "SKU Name" = p.SKU_Name ∧
    kwget p.get_data_for_csv "Product Line" = p.Product_Line ∧
    kwget p.get_data_for_csv "Category" = p.Category ∧
    kwget p.get_data_for_csv "Sub-Category" = p.Sub_Category ∧
    kwget p.get_data_for_csv "MFUPC" = p.MFUPC ∧
    kwget p.get_data_for_csv "Expiry Item" = p.Expiry_Item ∧
    kwget p.get_data_for_csv "Selling Ban" = p.Selling_Ban ∧
    kwget p.get_data_for_csv "Storage Type" = p.Storage_Type ∧
    kwget p.get_data_for_csv "Tester product" = p.Tester_product ∧
    kwget p.get_data_for_csv "Image URL" = p.Image_URL := by
  refine ⟨rfl, by decide, ?_⟩
  cases p
  simp [Product.get_data_for_csv, kwget]

theorem statusMatches_active_not_discontinued (v : PyVal)
    (h : statusMatches v "active" = true) :
    statusMatches v "discontinued" = false := by
  cases v with
  | str s =>
    simp only [statusMatches] at h ⊢
    by_cases h0 : s = ""
    · simp [h0] at h
    · simp only [h0, if_false] at h ⊢
      by_cases h1 : pyLower s = "active"
      · have h2 : pyLower s ≠ "discontinued" := by rw [h1]; decide
        simp [h2]
      · simp [h1] at h
  | float x => rfl
  | int n => rfl

theorem foldl_analyzeStep (db : List Product) (a d : Nat) (s : Rat)
    (c : List (PyVal × Nat)) :
    db.foldl analyzeStep (a, d, s, c) =
      ( a + db.countP (fun p => statusMatches p.Status "active"),
        d + db.countP (fun p =>
          !statusMatches p.Status "active" && statusMatches p.Status "discontinued"),
        s + (db.map Product.SRP).sum,
        db.foldl (fun acc p => bump acc (lineOf p)) c ) := by
  induction db generalizing a d s c with
  | nil => simp
  | cons p rest ih =>
    simp only [List.foldl_cons, analyzeStep, List.countP_cons, List.map_cons,
      List.sum_cons, ih, Prod.mk.injEq]
    refine ⟨?_, ?_, ?_, trivial⟩
    · by_cases hA : statusMatches p.Status "active" <;> simp [hA] <;> omega
    · by_cases hA : statusMatches p.Status "active" <;>
        by_cases hD : statusMatches p.Status "discontinued" <;>
          simp [hA, hD] <;> omega
    · rw [add_assoc]

theorem countP_discontinued_eq (db : List Product) :
    db.countP (fun p =>
        !statusMatches p.Status "active" && statusMatches p.Status "discontinued") =
      db.countP (fun p => statusMatches p.Status "discontinued") := by
  induction db with
  | nil => rfl
  | cons p rest ih =>
    simp only [List.countP_cons, ih]
    by_cases hD : statusMatches p.Status "discontinued"
    · have hA : statusMatches p.Status "active" = false := by
        cases hA : statusMatches p.Status "active"
        · rfl
        · have h2 := statusMatches_active_not_discontinued p.Status hA
          rw [h2] at hD
          cases hD
      simp [hA, hD]
    · have hD' : statusMatches p.Status "discontinued" = false := by
        simpa using hD
      simp [hD']

theorem countsGet_bump (c : List (PyVal × Nat)) (j k : PyVal) :
    countsGet (bump c j) k = countsGet c k + (if j = k then 1 else 0) := by
  induction c with
  | nil => by_cases h : j = k <;> simp [bump, countsGet, h]
  | cons kv rest ih =>
    obtain ⟨a, b⟩ := kv
    by_cases h1 : a = j
    · subst h1
      by_cases h2 : a = k
      · subst h2
        simp [bump, countsGet]
      · simp [bump, countsGet, h2]
    · by_cases h2 : a = k
      · subst h2
        have hjk : ¬ j = a := fun e => h1 e.symm
        simp [bump, countsGet, h1, hjk]
      · simp [bump, countsGet, h1, h2, ih]

theorem countsGet_foldl_bump (db : List Product) (c : List (PyVal × Nat))
    (k : PyVal) :
    countsGet (db.foldl (fun acc p => bump acc (lineOf p)) c) k =
      countsGet c k + db.countP (fun p => decide (lineOf p = k)) := by
  induction db generalizing c with
  | nil => simp
  | cons p rest ih =>
    simp only [List.foldl_cons, List.countP_cons, ih, countsGet_bump]
    by_cases h : lineOf p = k <;> simp [h] <;> omega

theorem bump_keys_mem (c : List (PyVal × Nat)) (j x : PyVal)
    (hx : x ∈ (bump c j).map Prod.fst) : x ∈ c.map Prod.fst ∨ x = j := by
  induction c with
  | nil => simpa [bump] using hx
  | cons kv rest ih =>
    obtain ⟨a, b⟩ := kv
    by_cases h : a = j
    · subst h
      have e : bump ((a, b) :: rest) a = (a, b + 1) :: rest := by simp [bump]
      rw [e] at hx
      simp only [List.map_cons, List.mem_cons] at hx ⊢
      exact Or.inl hx
    · simp only [bump, if_neg h, List.map_cons, List.mem_cons] at hx ⊢
      rcases hx with rfl | hx
      · exact Or.inl (Or.inl rfl)
      · rcases ih hx with h1 | h1
        · exact Or.inl (Or.inr h1)
        · exact Or.inr h1

theorem bump_keys_nodup (c : List (PyVal × Nat)) (j : PyVal)
    (h : (c.map Prod.fst).Nodup) : ((bump c j).map Prod.fst).Nodup := by
  induction c with
  | nil => simp [bump]
  | cons kv rest ih =>
    obtain ⟨a, b⟩ := kv
    simp only [List.map_cons, List.nodup_cons] at h
    by_cases hj : a = j
    · subst hj
      have e : bump ((a, b) :: rest) a = (a, b + 1) :: rest := by simp [bump]
      rw [e]
      simp only [List.map_cons, List.nodup_cons]
      exact ⟨h.1, h.2⟩
    · simp only [bump, if_neg hj, List.map_cons, List.nodup_cons]
      refine ⟨?_, ih h.2⟩
      intro hmem
      rcases bump_keys_mem rest j a hmem with h1 | h1
      · exact h.1 h1
      · exact hj h1

theorem foldl_bump_keys_nodup (db : List Product) (c : List (PyVal × Nat))
    (h : (c.map Prod.fst).Nodup) :
    ((db.foldl (fun acc p => bump acc (lineOf p)) c).map Prod.fst).Nodup := by
  induction db generalizing c with
  | nil => simpa
  | cons p rest ih => exact ih _ (bump_keys_nodup _ _ h)

theorem countsGet_eq_of_mem (c : List (PyVal × Nat)) (k : PyVal) (n : Nat)
    (hnd : (c.map Prod.fst).Nodup) (hm : (k, n) ∈ c) : countsGet c k = n := by
  induction c with
  | nil => cases hm
  | cons kv rest ih =>
    obtain ⟨a, b⟩ := kv
    simp only [List.map_cons, List.nodup_cons] at hnd
    rcases List.mem_cons.mp hm with h | h
    · have hk : k = a := congrArg Prod.fst h
      have hn : n = b := congrArg Prod.snd h
      subst hk
      subst hn
      simp [countsGet]
    · have hka : ¬ a = k := by
        intro e
        exact hnd.1 (e ▸ List.mem_map.mpr ⟨(k, n), h, rfl⟩)
      simp [countsGet, hka, ih hnd.2 h]

theorem pyMaxPair_spec (rest : List (PyVal × Nat)) (kv : PyVal × Nat) :
    (pyMaxPair kv rest = kv ∨ pyMaxPair kv rest ∈ rest) ∧
    kv.2 ≤ (pyMaxPair kv rest).2 ∧
    ∀ x ∈ rest, x.2 ≤ (pyMaxPair kv rest).2 := by
  induction rest generalizing kv with
  | nil => simp [pyMaxPair]
  | cons y ys ih =>
    have hstep : pyMaxPair kv (y :: ys) = pyMaxPair (if kv.2 < y.2 then y else kv) ys :=
      rfl
    by_cases h : kv.2 < y.2
    · obtain ⟨m1, m2, m3⟩ := ih y
      rw [hstep, if_pos h] at *
      refine ⟨?_, ?_, ?_⟩
      · rcases m1 with e | e
        · exact Or.inr (List.mem_cons.mpr (Or.inl e))
        · exact Or.inr (List.mem_cons.mpr (Or.inr e))
      · omega
      · intro x hx
        rcases List.mem_cons.mp hx with rfl | hx
        · exact m2
        · exact m3 x hx
    · obtain ⟨m1, m2, m3⟩ := ih kv
      rw [hstep, if_neg h] at *
      refine ⟨?_, ?_, ?_⟩
      · rcases m1 with e | e
        · exact Or.inl e
        · exact Or.inr (List.mem_cons.mpr (Or.inr e))
      · exact m2
      · intro x hx
        rcases List.mem_cons.mp hx with rfl | hx
        · omega
        · exact m3 x hx

theorem productLineCounts_def (db : List Product) :
    db.foldl (fun acc p => bump acc (lineOf p)) [] = productLineCounts db := rfl

theorem productLineCounts_keys_nodup (db : List Product) :
    ((productLineCounts db).map Prod.fst).Nodup := by
  have := foldl_bump_keys_nodup db [] (by simp)
  simpa [productLineCounts_def] using this

theorem analyze_products_eq_of_ne_nil (db : List Product) (h : ¬ db.length = 0) :
    analyze_products db =
      [ ("Total Products", toString db.length),
        ("Active Products",
          toString (db.countP (fun p => statusMatches p.Status "active"))),
        ("Discontinued",
          toString (db.countP (fun p => statusMatches p.Status "discontinued"))),
        ("Avg SRP", "â‚±" ++ fmtFixed2 ((db.map Product.SRP).sum / (db.length : Rat))),
        ("Top Product Line",
          pyToStr (pyMaxKey (productLineCounts db)) ++ " (" ++
            toString (countsGet (productLineCounts db)
              (pyMaxKey (productLineCounts db))) ++ ")") ] := by
  have hpos : 0 < db.length := Nat.pos_of_ne_zero h
  simp only [analyze_products, h, if_false, foldl_analyzeStep, hpos, if_true,
    Nat.zero_add, zero_add, countP_discontinued_eq, productLineCounts_def]

/-- C4: on any non-empty database, analyze_products reports Total Products
    as the database length, Active Products and Discontinued as the counts
    of records whose Status matches active respectively discontinued
    case-insensitively, and Avg SRP as the SRP sum over all records divided
    by the total count, rendered as currency with two decimals. -/
theorem analyze_products_nonempty_counts (db : List Product) (h : db ≠ []) :
    metricsGet (analyze_products db) "Total Products" = some (toString db.length) ∧
    metricsGet (analyze_products db) "Active Products" =
      some (toString (db.countP (fun p => statusMatches p.Status "active"))) ∧
    metricsGet (analyze_products db) "Discontinued" =
      some (toString (db.countP (fun p => statusMatches p.Status "discontinued"))) ∧
    metricsGet (analyze_products db) "Avg SRP" =
      some ("â‚±" ++ fmtFixed2 ((db.map Product.SRP).sum / (db.length : Rat))) := by
  have hlen : ¬ db.length = 0 := by simpa [List.length_eq_zero] using h
  rw [analyze_products_eq_of_ne_nil db hlen]
  refine ⟨?_, ?_, ?_, ?_⟩ <;> simp [metricsGet]

/-- The three-record database of the spec example: statuses Active, active,
    Discontinued with SRP 10.00, 20.00, 30.00. -/
def sample3 : List Product :=
  [ Product.ofKwargs [("Status", PyVal.str "Active"), ("SRP", PyVal.str "10.00")],
    Product.ofKwargs [("Status", PyVal.str "active"), ("SRP", PyVal.str "20.00")],
    Product.ofKwargs [("Status", PyVal.str "Discontinued"), ("SRP", PyVal.str "30.00")] ]

theorem analyze_products_nonempty_counts_witness :
    metricsGet (analyze_products sample3) "Total Products" = some "3" ∧
    metricsGet (analyze_products sample3) "Active Products" = some "2" ∧
    metricsGet (analyze_products sample3) "Discontinued" = some "1" ∧
    metricsGet (analyze_products sample3) "Avg SRP" = some "â‚±20.00" := by
  obtain ⟨h1, h2, h3, h4⟩ := analyze_products_nonempty_counts sample3 (by decide)
  exact ⟨h1.trans (by decide), h2.trans (by decide), h3.trans (by decide),
    h4.trans (by decide)⟩

/-- C5: on any non-empty database, the product-line frequency map counts,
    for every key, the records whose Product Line is that key (an empty
    Product Line counted under the literal key Unassigned, as lineOf
    states); the reported Top Product Line is a key whose occurrence count
    is highest, followed by its count in parentheses. -/
theorem analyze_products_top_product_line (db : List Product) (h : db ≠ []) :
    (∀ k : PyVal, countsGet (productLineCounts db) k =
      db.countP (fun p => decide (lineOf p = k))) ∧
    (∀ kv ∈ productLineCounts db,
      kv.2 ≤ countsGet (productLineCounts db) (pyMaxKey (productLineCounts db))) ∧
    metricsGet (analyze_products db) "Top Product Line" =
      some (pyToStr (pyMaxKey (productLineCounts db)) ++ " (" ++
        toString (countsGet (productLineCounts db)
          (pyMaxKey (productLineCounts db))) ++ ")") := by
  have hlen : ¬ db.length = 0 := by simpa [List.length_eq_zero] using h
  refine ⟨?_, ?_, ?_⟩
  · intro k
    have := countsGet_foldl_bump db [] k
    simpa [productLineCounts_def, countsGet] using this
  · cases hcs : productLineCounts db with
    | nil => intro kv hkv; cases hkv
    | cons kv0 rest =>
      intro kv hkv
      obtain ⟨m1, m2, m3⟩ := pyMaxPair_spec rest kv0
      have hmem : pyMaxPair kv0 rest ∈ kv0 :: rest := by
        rcases m1 with e | e
        · exact List.mem_cons.mpr (Or.inl e)
        · exact List.mem_cons.mpr (Or.inr e)
      have hnd : ((kv0 :: rest).map Prod.fst).Nodup := by
        rw [← hcs]; exact productLineCounts_keys_nodup db
      have htop : countsGet (kv0 :: rest) (pyMaxKey (kv0 :: rest)) =
          (pyMaxPair kv0 rest).2 := by
        have : pyMaxKey (kv0 :: rest) = (pyMaxPair kv0 rest).1 := rfl
        rw [this]
        exact countsGet_eq_of_mem _ _ _ hnd (by simpa using hmem)
      rw [htop]
      rcases List.mem_cons.mp hkv with rfl | hkv
      · exact m2
      · exact m3 kv hkv
  · rw [analyze_products_eq_of_ne_nil db hlen]
    simp [metricsGet]

/-- The four-record database of the spec example: product lines A, A, B
    and one record with an empty product line. -/
def sample4 : List Product :=
  [ Product.ofKwargs [("Product Line", PyVal.str "A")],
    Product.ofKwargs [("Product Line", PyVal.str "A")],
    Product.ofKwargs [("Product Line", PyVal.str "B")],
    Product.ofKwargs [("Product Line", PyVal.str "")] ]

theorem analyze_products_top_product_line_witness :
    countsGet (productLineCounts sample4) (PyVal.str "A") = 2 ∧
    countsGet (productLineCounts sample4) (PyVal.str "B") = 1 ∧
    countsGet (productLineCounts sample4) (PyVal.str "Unassigned") = 1 ∧
    metricsGet (analyze_products sample4) "Top Product Line" = some "A (2)" := by
  obtain ⟨h1, _h2, h3⟩ := analyze_products_top_product_line sample4 (by decide)
  exact ⟨(h1 (PyVal.str "A")).trans (by decide),
    (h1 (PyVal.str "B")).trans (by decide),
    (h1 (PyVal.str "Unassigned")).trans (by decide),
    h3.trans (by decide)⟩

/-- C9: loading is atomic for the in-memory database: a missing storage
    file leaves the database exactly as it was (so an empty collection
    stays empty, with no error); an error at any point while reading rows
    leaves the previous database completely unchanged; and only a read in
    which every row succeeds replaces the database, with the products
    constructed from the rows. -/
theorem load_products_from_csv_atomic (file : Option (List RowRead))
    (db : List Product) :
    (file = none → load_products_from_csv file db = db) ∧
    (∀ rows, file = some rows → collectRows rows = none →
      load_products_from_csv file db = db) ∧
    (∀ rows rs, file = some rows → collectRows rows = some rs →
      load_products_from_csv file db = List.map Product.ofKwargs rs) := by
  refine ⟨?_, ?_, ?_⟩
  · intro hf
    subst hf
    rfl
  · intro rows hf hc
    subst hf
    simp [load_products_from_csv, hc]
  · intro rows rs hf hc
    subst hf
    simp [load_products_from_csv, hc]

/-- A one-product database used to exercise the load transitions. -/
def sampleDb : List Product :=
  [Product.ofKwargs [("SKU Code", PyVal.str "K1"), ("SKU Name", PyVal.str "Keep")]]

/-- A row stream whose second row fails to read. -/
def errRows : List RowRead :=
  [Except.ok [("SKU Code", PyVal.str "X")], Except.error "read failure"]

theorem load_products_from_csv_atomic_witness :
    load_products_from_csv none sampleDb = sampleDb ∧
    collectRows errRows = none ∧
    load_products_from_csv (some errRows) sampleDb = sampleDb := by
  obtain ⟨g1, _, _⟩ := load_products_from_csv_atomic none sampleDb
  obtain ⟨_, h2, _⟩ := load_products_from_csv_atomic (some errRows) sampleDb
  exact ⟨g1 rfl, by decide, h2 errRows rfl (by decide)⟩

/-- A mapping that assigns the same raw string to all four integer fields. -/
def intFieldsKw (v : String) : Kwargs :=
  [ ("PCS per Inner Box", PyVal.str v), ("PCS per Master Box", PyVal.str v),
    ("Shelflife (Months)", PyVal.str v), ("Period After Opening (Months)", PyVal.str v) ]

/-- C10: integer coercion does not truncate: a raw string that parses as a
    number but not with exact integer syntax (such as 3.5) makes every one
    of the four integer fields 0 rather than a truncated integer part, and
    a nonzero stored value can only come from a string that exact integer
    parsing accepts. -/
theorem try_int_no_truncation (v : String) (_hf : pyFloat? v ≠ none)
    (hi : pyInt? v = none) :
    (Product.ofKwargs (intFieldsKw v)).PCS_per_Inner_Box = 0 ∧
    (Product.ofKwargs (intFieldsKw v)).PCS_per_Master_Box = 0 ∧
    (Product.ofKwargs (intFieldsKw v)).Shelflife_Months = 0 ∧
    (Product.ofKwargs (intFieldsKw v)).Period_After_Opening_Months = 0 ∧
    (∀ w : String, (Product.ofKwargs (intFieldsKw w)).Shelflife_Months ≠ 0 →
      ∃ n : Int, pyInt? w = some n) := by
  refine ⟨?_, ?_, ?_, ?_, ?_⟩
  · simp [Product.ofKwargs, intFieldsKw, kwget, try_int_str, hi]
  · simp [Product.ofKwargs, intFieldsKw, kwget, try_int_str, hi]
  · simp [Product.ofKwargs, intFieldsKw, kwget, try_int_str, hi]
  · simp [Product.ofKwargs, intFieldsKw, kwget, try_int_str, hi]
  · intro w hw
    cases hpw : pyInt? w with
    | none =>
      exact absurd (by simp [Product.ofKwargs, intFieldsKw, kwget, try_int_str, hpw]) hw
    | some n => exact ⟨n, rfl⟩

theorem try_int_no_truncation_witness :
    pyFloat? "3.5" ≠ none ∧ pyInt? "3.5" = none ∧
    (Product.ofKwargs (intFieldsKw "3.5")).Shelflife_Months = 0 := by
  obtain ⟨_, _, h3, _, _⟩ := try_int_no_truncation "3.5" (by decide) (by decide)
  exact ⟨by decide, by decide, h3⟩
